import Mathlib

/-!
Verification of the audiobook transcoding and HLS streaming back end.

The relational state (TranscodingJob rows, TranscodedChapter/Rendition rows)
is modelled as lists of records; Prisma queries become list filters over that
state.  A query without an explicit `orderBy` is modelled as returning rows in
the order they appear in the row list (the database order is unspecified, so
nothing may rely on it).  The Redis cache is an association list of string keys
to string values where a later write shadows an earlier one; byte buffers are
lists of naturals (real buffers hold values below 256).  Real time in the
master worker's polling loop is modelled by the index of the poll iteration.
-/

namespace AudioStream

/-- Byte buffers (Node `Buffer`): lists of naturals, values below 256. -/
abbrev Bytes := List Nat

/-- A `transcoded_chapters` (rendition) row. -/
structure Rendition where
  chapterId : String
  bitrate : Nat
  playlistUrl : String
  segmentsPath : String
  status : String
  deriving Repr, DecidableEq

/-- A `transcoding_jobs` row; `createdAt` is a timestamp used for ordering. -/
structure TranscodingJob where
  chapterId : String
  status : String
  progress : Nat
  createdAt : Nat
  deriving Repr, DecidableEq

/-- The relational database of record. -/
structure DB where
  renditions : List Rendition
  jobs : List TranscodingJob
  deriving Repr, DecidableEq

/-- Rows of `transcodedChapter.findMany({where:{chapterId, status:'completed'}})`. -/
def completedRenditions (db : DB) (c : String) : List Rendition :=
  db.renditions.filter (fun r => r.chapterId == c && r.status == "completed")

/-- Ascending sort, modelling `orderBy: { bitrate: 'asc' }` and the JS
numeric sort `(a, b) => a - b`. -/
def sortAsc (l : List Nat) : List Nat :=
  List.insertionSort (fun a b => a ≤ b) l

/-- `HLSStreamingService.getAvailableBitrates`: bitrates of completed
renditions for the chapter, ascending. -/
def getAvailableBitrates (db : DB) (c : String) : List Nat :=
  sortAsc ((completedRenditions db c).map (fun r => r.bitrate))

/-- All job rows of a chapter, in database order. -/
def jobsFor (db : DB) (c : String) : List TranscodingJob :=
  db.jobs.filter (fun j => j.chapterId == c)

/-- `findFirst({orderBy:{createdAt:'desc'}})` / `findMany(... take 1)`: the
most-recent-by-`createdAt` row (first such row on ties). -/
def latestJob (jobs : List TranscodingJob) : Option TranscodingJob :=
  jobs.foldl
    (fun acc j =>
      match acc with
      | none => some j
      | some a => if a.createdAt < j.createdAt then some j else acc)
    none

/-- `HLSStreamingService.estimateBandwidth`: 0 when no bitrate is available,
otherwise the highest available bitrate times 1000. -/
def estimateBandwidth (bs : List Nat) : Nat :=
  match bs with
  | [] => 0
  | _ => bs.foldl max 0 * 1000

/-- Result shape of `HLSStreamingService.getStreamingStatus`. -/
structure StreamingStatus where
  chapterId : String
  availableBitrates : List Nat
  transcodingStatus : String
  canStream : Bool
  estimatedBandwidth : Nat
  deriving Repr, DecidableEq

/-- `HLSStreamingService.getStreamingStatus`: available bitrates from the
rendition rows; `transcodingStatus` from the latest job row (or
`not_started`); `canStream` iff some bitrate is available. -/
def getStreamingStatus (db : DB) (c : String) : StreamingStatus :=
  let avail := getAvailableBitrates db c
  let status :=
    match latestJob (jobsFor db c) with
    | some j => j.status
    | none => "not_started"
  { chapterId := c
    availableBitrates := avail
    transcodingStatus := status
    canStream := !avail.isEmpty
    estimatedBandwidth := estimateBandwidth avail }

/-- The configured bitrate ladder (`TRANSCODING_BITRATES`, default 64,128,256). -/
def TRANSCODING_BITRATES : List Nat := [64, 128, 256]

/-- The `transcodedBitrates` list of `TranscodingService.getTranscodingStatus`:
rows fetched by chapter, then filtered to `completed` in JS, projected to the
bitrate. -/
def transcodedBitratesOf (db : DB) (c : String) : List Nat :=
  ((db.renditions.filter (fun r => r.chapterId == c)).filter
      (fun r => r.status == "completed")).map (fun r => r.bitrate)

/-- `TranscodingService.getTranscodingStatus`: the `overallStatus` field.
Completed rendition count compared against the configured ladder length;
`partial` when some but not all are done. -/
def getTranscodingStatusOverall (db : DB) (c : String) : String :=
  if (transcodedBitratesOf db c).length > 0 then
    if (transcodedBitratesOf db c).length == TRANSCODING_BITRATES.length then "completed"
    else "partial"
  else if (jobsFor db c).any (fun j => j.status == "processing") then "processing"
  else if (jobsFor db c).any (fun j => j.status == "failed") then "failed"
  else "pending"

/-- C1 counterexample database: one completed 64k rendition (so one of the
three configured bitrates is done) and a latest job row in state
`processing`. -/
def c1db : DB :=
  { renditions := [{ chapterId := "ch1", bitrate := 64
                     playlistUrl := "bit_transcode/ch1/64k/playlist.m3u8"
                     segmentsPath := "bit_transcode/ch1/64k/"
                     status := "completed" }]
    jobs := [{ chapterId := "ch1", status := "processing", progress := 40, createdAt := 7 }] }

/-- One `#EXT-X-STREAM-INF` block of `TranscodingService.generateMasterPlaylist`:
bandwidth is the bitrate (kbps) times 1000, the URI is `{b}k/playlist.m3u8`. -/
def variantEntry (b : Nat) : String :=
  "#EXT-X-STREAM-INF:BANDWIDTH=" ++ toString (b * 1000) ++ ",CODECS=\"mp4a.40.2\"\n"
    ++ toString b ++ "k/playlist.m3u8\n\n"

/-- `TranscodingService.generateMasterPlaylist`: header then one block per
variant, in the order of the given list (the loop appends; nothing sorts). -/
def generateMasterPlaylist (variants : List Nat) : String :=
  variants.foldl (fun acc b => acc ++ variantEntry b) "#EXTM3U\n#EXT-X-VERSION:3\n\n"

/-- Rows of the master worker's query: chapter matches, bitrate in the job's
`variantBitrates`, status completed.  No `orderBy`, so database row order. -/
def masterWorkerRows (db : DB) (c : String) (vbs : List Nat) : List Rendition :=
  db.renditions.filter
    (fun r => r.chapterId == c && vbs.contains r.bitrate && r.status == "completed")

/-- `MasterPlaylistProcessor.generateMasterPlaylistForBitrates`: `none` when
the query returns no rows (the code throws), otherwise the master playlist
over the returned rows' bitrates in row order. -/
def generateMasterPlaylistForBitrates (db : DB) (c : String) (vbs : List Nat) :
    Option String :=
  if (masterWorkerRows db c vbs).isEmpty then none
  else some (generateMasterPlaylist ((masterWorkerRows db c vbs).map (fun r => r.bitrate)))

/-- Modelled from the spec: the master playlist P4 claims — exactly the
completed bitrates of the chapter, in ascending order. -/
def specMasterPlaylistText (db : DB) (c : String) : String :=
  generateMasterPlaylist (getAvailableBitrates db c)

/-- C2 counterexample database: completed renditions at 128, 64 (in that row
order) and at 320; the master job carries `variantBitrates = [64, 128]`. -/
def c2db : DB :=
  { renditions :=
      [{ chapterId := "ch2", bitrate := 128
         playlistUrl := "bit_transcode/ch2/128k/playlist.m3u8"
         segmentsPath := "bit_transcode/ch2/128k/", status := "completed" },
       { chapterId := "ch2", bitrate := 64
         playlistUrl := "bit_transcode/ch2/64k/playlist.m3u8"
         segmentsPath := "bit_transcode/ch2/64k/", status := "completed" },
       { chapterId := "ch2", bitrate := 320
         playlistUrl := "bit_transcode/ch2/320k/playlist.m3u8"
         segmentsPath := "bit_transcode/ch2/320k/", status := "completed" }]
    jobs := [] }

/-- Concatenation of the `#EXT-X-STREAM-INF` blocks of a bitrate list. -/
def concatEntries : List Nat → String
  | [] => ""
  | b :: bs => variantEntry b ++ concatEntries bs

/-- `maxWaitTime` of `MasterPlaylistProcessor.waitForBitrateJobs`: 30 min. -/
def maxWaitTimeMs : Nat := 30 * 60 * 1000

/-- `checkInterval` of `MasterPlaylistProcessor.waitForBitrateJobs`: 5 s. -/
def checkIntervalMs : Nat := 5000

/-- Number of polls the loop `while (Date.now() - startTime < maxWaitTime)`
performs when each iteration advances time by one `checkInterval`. -/
def maxChecks : Nat := maxWaitTimeMs / checkIntervalMs

/-- Bitrates of the rows the master worker's poll query returns: completed
renditions of the chapter among the job's `variantBitrates`. -/
def completedAmong (db : DB) (c : String) (vbs : List Nat) : List Nat :=
  (masterWorkerRows db c vbs).map (fun r => r.bitrate)

/-- The polling loop of `waitForBitrateJobs`: `obs k` is the query result of
the k-th poll; the loop returns the first non-empty result, or `[]` once the
fuel (remaining polls before the 30-minute deadline) is exhausted. -/
def waitLoop (obs : Nat → List Nat) : Nat → Nat → List Nat
  | _, 0 => []
  | k, fuel + 1 => if (obs k).isEmpty then waitLoop obs (k + 1) fuel else obs k

/-- `MasterPlaylistProcessor.waitForBitrateJobs` over a time-indexed sequence
of database snapshots (`dbs k` is the database at the k-th poll). -/
def waitForBitrateJobs (dbs : Nat → DB) (c : String) (vbs : List Nat) : List Nat :=
  waitLoop (fun k => completedAmong (dbs k) c vbs) 0 maxChecks

/-- Outcome of a master playlist job. -/
structure MasterJobOutcome where
  jobFailed : Bool
  uploadedMaster : Option (String × String)
  deriving Repr, DecidableEq

/-- `MasterPlaylistProcessor.processMasterPlaylist`: wait for bitrate jobs,
fail (and upload nothing) when nothing completed before the deadline,
otherwise generate the playlist against `dbPost` (the database at generation
time) and upload it to `bit_transcode/{chapterId}/master.m3u8`. -/
def processMasterPlaylist (dbs : Nat → DB) (dbPost : DB) (c : String)
    (vbs : List Nat) : MasterJobOutcome :=
  let completed := waitForBitrateJobs dbs c vbs
  if completed.isEmpty then { jobFailed := true, uploadedMaster := none }
  else
    match generateMasterPlaylistForBitrates dbPost c completed with
    | none => { jobFailed := true, uploadedMaster := none }
    | some mp =>
        { jobFailed := false
          uploadedMaster := some ("bit_transcode/" ++ c ++ "/master.m3u8", mp) }

/-- A `ChapterTranscodeRequest` as consumed by the Intake Worker. -/
structure IntakeMessage where
  chapterId : String
  bitrates : List Nat
  priority : String
  retryCount : Nat
  deriving Repr, DecidableEq

/-- Observable effects of one successful pass of
`TranscodingWorker.processTranscodingJob`. -/
structure IntakeResult where
  jobCreated : Bool
  enqueuedBitrates : List Nat
  masterJob : Option (List Nat)
  acked : Bool
  deriving Repr, DecidableEq

/-- `TranscodingWorker.processTranscodingJob` (success path): drop bitrates
that already have a completed rendition; when none remain, ack and exit
without touching the job table or the queues; otherwise create a job row,
enqueue each remaining bitrate and one master job carrying the remaining
bitrates. -/
def processIntake (db : DB) (m : IntakeMessage) : IntakeResult :=
  let existing := completedAmong db m.chapterId m.bitrates
  let remaining := m.bitrates.filter (fun b => !existing.contains b)
  if remaining.isEmpty then
    { jobCreated := false, enqueuedBitrates := [], masterJob := none, acked := true }
  else
    { jobCreated := true, enqueuedBitrates := remaining
      masterJob := some remaining, acked := true }

/-- `transcodedChapter.findUnique({where:{chapterId_bitrate}})`. -/
def findRendition (db : DB) (c : String) (b : Nat) : Option Rendition :=
  db.renditions.find? (fun r => r.chapterId == c && r.bitrate == b)

/-- Observable effects of `BitrateTranscodingProcessor.processBitrateTranscoding`. -/
structure BitrateJobOutcome where
  encoderInvoked : Bool
  finalProgress : Nat
  dbAfter : DB
  deriving Repr, DecidableEq

/-- The rendition upsert performed after a successful encode. -/
def upsertRendition (db : DB) (c : String) (b : Nat) : DB :=
  let pl := "bit_transcode/" ++ c ++ "/" ++ toString b ++ "k/playlist.m3u8"
  let sp := "bit_transcode/" ++ c ++ "/" ++ toString b ++ "k/"
  if (findRendition db c b).isSome then
    { db with renditions := db.renditions.map (fun r =>
        if r.chapterId == c && r.bitrate == b then
          { r with playlistUrl := pl, segmentsPath := sp, status := "completed" }
        else r) }
  else
    { db with renditions := db.renditions ++
        [{ chapterId := c, bitrate := b, playlistUrl := pl, segmentsPath := sp
           status := "completed" }] }

/-- `BitrateTranscodingProcessor.processBitrateTranscoding`: short-circuit at
progress 100 without invoking the encoder when the `(chapterId, bitrate)`
rendition is already completed; otherwise encode (external media work,
modelled as its successful effect) and upsert the rendition row. -/
def processBitrateTranscoding (db : DB) (c : String) (b : Nat) : BitrateJobOutcome :=
  match findRendition db c b with
  | some r =>
      if r.status == "completed" then
        { encoderInvoked := false, finalProgress := 100, dbAfter := db }
      else
        { encoderInvoked := true, finalProgress := 100, dbAfter := upsertRendition db c b }
  | none =>
      { encoderInvoked := true, finalProgress := 100, dbAfter := upsertRendition db c b }

/-- Effects of the catch block of `TranscodingWorker.processTranscodingJob`.
The worker swallows the error, so the consumer wrapper acks the message (no
nack-with-requeue on this path). -/
structure IntakeFailureOutcome where
  republished : Option IntakeMessage
  jobMarkedFailed : Bool
  nackRequeued : Bool
  deriving Repr, DecidableEq

/-- The catch block: republish to the low-priority queue with `retryCount+1`
while `retryCount < 3`, and in every case mark the latest job row failed. -/
def intakeOnFailure (m : IntakeMessage) : IntakeFailureOutcome :=
  if m.retryCount < 3 then
    { republished := some { m with retryCount := m.retryCount + 1, priority := "low" }
      jobMarkedFailed := true, nackRequeued := false }
  else
    { republished := none, jobMarkedFailed := true, nackRequeued := false }

/-- C5 fixed failing message: a first-attempt failure (`retryCount = 0`). -/
def c5msg : IntakeMessage :=
  { chapterId := "ch5", bitrates := [64], priority := "normal", retryCount := 0 }

/-- The base64 alphabet used by Node `Buffer.toString('base64')`. -/
def b64Alphabet : List Char :=
  "ABCDEFGHIJKLMNOPQRSTUVWXYZabcdefghijklmnopqrstuvwxyz0123456789+/".toList

/-- Character for a sextet value; `=` doubles as the padding character. -/
def b64CharOf (n : Nat) : Char := b64Alphabet.getD n '='

/-- Index scan used to invert the alphabet. -/
def b64ValOfAux : List Char → Char → Nat → Nat
  | [], _, _ => 0
  | a :: as, c, i => if a == c then i else b64ValOfAux as c (i + 1)

/-- Sextet value of a base64 character. -/
def b64ValOf (c : Char) : Nat := b64ValOfAux b64Alphabet c 0

/-- `Buffer.toString('base64')`: RFC 4648 with padding, three bytes per four
characters. -/
def b64Encode : Bytes → List Char
  | [] => []
  | [b1] => [b64CharOf (b1 / 4), b64CharOf (b1 % 4 * 16), '=', '=']
  | [b1, b2] =>
      [b64CharOf (b1 / 4), b64CharOf (b1 % 4 * 16 + b2 / 16),
       b64CharOf (b2 % 16 * 4), '=']
  | b1 :: b2 :: b3 :: rest =>
      b64CharOf (b1 / 4) :: b64CharOf (b1 % 4 * 16 + b2 / 16) ::
      b64CharOf (b2 % 16 * 4 + b3 / 64) :: b64CharOf (b3 % 64) :: b64Encode rest

/-- `Buffer.from(s, 'base64')`: inverse of the encoding on well-formed input. -/
def b64Decode : List Char → Bytes
  | c1 :: c2 :: c3 :: c4 :: rest =>
      if c3 = '=' then [b64ValOf c1 * 4 + b64ValOf c2 / 16]
      else if c4 = '=' then
        [b64ValOf c1 * 4 + b64ValOf c2 / 16, b64ValOf c2 % 16 * 16 + b64ValOf c3 / 4]
      else
        (b64ValOf c1 * 4 + b64ValOf c2 / 16) ::
        (b64ValOf c2 % 16 * 16 + b64ValOf c3 / 4) ::
        (b64ValOf c3 % 4 * 64 + b64ValOf c4) :: b64Decode rest
  | _ => []

/-- The Redis cache: string keys to string values; a later write for the same
key shadows the earlier one.  (The `key:meta` metadata sidecar holds only
wall-clock timestamps and sizes and is not modelled.) -/
structure Cache where
  entries : List (String × String)
  deriving Repr, DecidableEq

/-- Redis GET. -/
def cacheLookup (c : Cache) (k : String) : Option String :=
  (c.entries.find? (fun kv => kv.fst == k)).map (fun kv => kv.snd)

/-- Redis SETEX (TTL not modelled beyond existence of the entry). -/
def cacheSetRaw (c : Cache) (k v : String) : Cache :=
  { entries := (k, v) :: c.entries }

/-- `StreamingCacheService.set`: the buffer is stored base64-encoded. -/
def cacheSet (c : Cache) (k : String) (v : Bytes) : Cache :=
  cacheSetRaw c k (String.mk (b64Encode v))

/-- `StreamingCacheService.get`: decodes the stored base64 string; a stored
empty string is falsy in JS (`if (cached)`), so it reads as a miss. -/
def cacheGet (c : Cache) (k : String) : Option Bytes :=
  match cacheLookup c k with
  | some s => if s = "" then none else some (b64Decode s.data)
  | none => none

/-- The object store: keys to byte contents. -/
structure Storage where
  files : List (String × Bytes)
  deriving Repr, DecidableEq

/-- `StorageProvider.downloadFile`: the object at a key, if present. -/
def storageLookup (st : Storage) (p : String) : Option Bytes :=
  (st.files.find? (fun kv => kv.fst == p)).map (fun kv => kv.snd)

/-- `StorageProvider.listFiles`: keys under a path. -/
def listFiles (st : Storage) (pre : String) : List String :=
  (st.files.map (fun kv => kv.fst)).filter (fun k => pre.isPrefixOf k)

/-- Cache key of a segment (`stream:segment:{segment_id}`). -/
def segmentCacheKey (sid : String) : String := "stream:segment:" ++ sid

/-- Response of the segment endpoint. -/
structure SegmentResponse where
  statusCode : Nat
  contentType : String
  body : Option Bytes
  cacheControl : String
  deriving Repr, DecidableEq

/-- `HLSStreamingService.getSegment`: require a completed rendition, then
cache-first read with storage fallback at `{segmentsPath}/{segmentId}`; a
fallback hit is cached; a missing object is 404. -/
def getSegment (db : DB) (st : Storage) (cache : Cache) (c : String) (b : Nat)
    (sid : String) : SegmentResponse × Cache :=
  match findRendition db c b with
  | none =>
      ({ statusCode := 404, contentType := "text/plain", body := none
         cacheControl := "no-cache" }, cache)
  | some r =>
      if r.status == "completed" then
        match cacheGet cache (segmentCacheKey sid) with
        | some content =>
            ({ statusCode := 200, contentType := "video/mp2t", body := some content
               cacheControl := "public, max-age=3600" }, cache)
        | none =>
            match storageLookup st (r.segmentsPath ++ "/" ++ sid) with
            | some content =>
                ({ statusCode := 200, contentType := "video/mp2t"
                   body := some content, cacheControl := "public, max-age=3600" },
                 cacheSet cache (segmentCacheKey sid) content)
            | none =>
                ({ statusCode := 404, contentType := "text/plain", body := none
                   cacheControl := "no-cache" }, cache)
      else
        ({ statusCode := 404, contentType := "text/plain", body := none
           cacheControl := "no-cache" }, cache)

/-- Three-digit zero padding (`i.toString().padStart(3, '0')` / `%03d`). -/
def pad3 (i : Nat) : String :=
  let s := toString i
  if s.length ≥ 3 then s
  else String.mk (List.replicate (3 - s.length) '0') ++ s

/-- Segment id used by the preloader: `{chapterId}_{bitrate}_{NNN}`. -/
def preloadSegmentId (c : String) (b : Nat) (i : Nat) : String :=
  c ++ "_" ++ toString b ++ "_" ++ pad3 i

/-- Storage path used by the preloader:
`bit_transcode/{chapterId}/{bitrate}k/segment_{NNN}.ts`. -/
def preloadSegmentPath (c : String) (b : Nat) (i : Nat) : String :=
  "bit_transcode/" ++ c ++ "/" ++ toString b ++ "k/segment_" ++ pad3 i ++ ".ts"

/-- Body of the preload loop: download segment i and cache it (a download
failure is caught and skipped; only successes count). -/
def preloadStep (st : Storage) (c : String) (b : Nat) (acc : Cache × Nat)
    (i : Nat) : Cache × Nat :=
  match storageLookup st (preloadSegmentPath c b i) with
  | some content =>
      (cacheSet acc.fst (segmentCacheKey (preloadSegmentId c b i)) content,
       acc.snd + 1)
  | none => acc

/-- `StreamingCacheService.preloadChapterSegments`: loop i = 0..count-1 over
the segments, returning the updated cache and the number loaded. -/
def preloadChapterSegments (st : Storage) (cache : Cache) (c : String) (b : Nat)
    (count : Nat) : Cache × Nat :=
  (List.range count).foldl (preloadStep st c b) (cache, 0)

/-- `HLSStreamingService.preloadChapter`: requires a completed rendition;
counts the `.ts` files under its `segmentsPath` and preloads that many
segments; returns `true` on success and `false` otherwise — the loaded count
from `preloadChapterSegments` is discarded. -/
def preloadChapter (db : DB) (st : Storage) (cache : Cache) (c : String) (b : Nat) :
    Bool × Cache :=
  match findRendition db c b with
  | some r =>
      if r.status == "completed" then
        (true, (preloadChapterSegments st cache c b
          ((listFiles st r.segmentsPath).filter (fun f => f.endsWith ".ts")).length).fst)
      else (false, cache)
  | none => (false, cache)

/-- C3 storage with two stored segments of chapter ch1 at 64k. -/
def c3st2 : Storage :=
  { files := [("bit_transcode/ch1/64k/segment_000.ts", [1]),
              ("bit_transcode/ch1/64k/segment_001.ts", [2])] }

/-- C3 storage with three stored segments of chapter ch1 at 64k. -/
def c3st3 : Storage :=
  { files := [("bit_transcode/ch1/64k/segment_000.ts", [1]),
              ("bit_transcode/ch1/64k/segment_001.ts", [2]),
              ("bit_transcode/ch1/64k/segment_002.ts", [3])] }

/-- JS `x || d` for a number: both `undefined` and `0` are falsy. -/
def jsOr (a : Option Nat) (d : Nat) : Nat :=
  match a with
  | some v => if v = 0 then d else v
  | none => d

/-- Truthiness of `preferredBitrate && bitrateInfos.some(...)`: a zero
preference is falsy. -/
def prefCond (bitrates : List Nat) (pb : Option Nat) : Bool :=
  match pb with
  | some p => (p != 0) && bitrates.contains p
  | none => false

/-- Truthiness of `clientBandwidth` (`!clientBandwidth` selects the median
branch): a zero bandwidth is falsy. -/
def cbCond (cb : Option Nat) : Bool :=
  match cb with
  | some w => w != 0
  | none => false

/-- `HLSStreamingService.selectRecommendedBitrate` with JS truthiness: zero
preference skipped, zero bandwidth treated as absent, `x || 128` treats a
zero bitrate as absent. -/
def selectRecommendedBitrate (bitrates : List Nat) (cb pb : Option Nat) : Nat :=
  if prefCond bitrates pb then pb.getD 0
  else if cbCond cb then
    if (bitrates.filter (fun b => b * 1000 ≤ cb.getD 0)).length > 0 then
      jsOr (bitrates.filter (fun b => b * 1000 ≤ cb.getD 0))[(bitrates.filter
        (fun b => b * 1000 ≤ cb.getD 0)).length - 1]? 128
    else jsOr bitrates[0]? 128
  else
    jsOr (sortAsc bitrates)[(sortAsc bitrates).length / 2]?
      (jsOr (sortAsc bitrates)[0]? 128)

/-- The `bitrateInfos` loop of `HLSStreamingService.generateMasterPlaylist`:
one entry per available bitrate whose `findUnique` returns a row. -/
def hlsBitrateInfos (db : DB) (c : String) : List Nat :=
  (getAvailableBitrates db c).filter (fun b => (findRendition db c b).isSome)

/-- One `#EXT-X-STREAM-INF` block of the on-the-fly master playlist; the
recommended variant carries `RESOLUTION=0x0`. -/
def hlsVariantBlock (c : String) (b : Nat) (recommended : Bool) : String :=
  "#EXT-X-STREAM-INF:BANDWIDTH=" ++ toString (b * 1000) ++ ",CODECS=\"mp4a.40.2\"" ++
    (if recommended then ",RESOLUTION=0x0" else "") ++
    "\nbit_transcode/" ++ c ++ "/" ++ toString b ++ "k/playlist.m3u8\n\n"

/-- `HLSStreamingService.generateMasterPlaylist`: the recommended bitrate and
the playlist text. -/
def hlsGenerateMasterPlaylist (db : DB) (c : String) (cb pb : Option Nat) :
    Nat × String :=
  (selectRecommendedBitrate (hlsBitrateInfos db c) cb pb,
   (hlsBitrateInfos db c).foldl
     (fun acc b => acc ++
       hlsVariantBlock c b (b == selectRecommendedBitrate (hlsBitrateInfos db c) cb pb))
     "#EXTM3U\n#EXT-X-VERSION:3\n\n")

/-- Concatenation of a list of strings. -/
def concatStrings : List String → String
  | [] => ""
  | s :: r => s ++ concatStrings r

/-- UTF-8 bytes of (ASCII) playlist text (`Buffer.from(text, 'utf-8')`). -/
def strBytes (s : String) : Bytes := s.data.map Char.toNat

/-- Cache key of a playlist (`stream:playlist:{c}:{master|bitrate}`). -/
def playlistCacheKey (c : String) (b : Nat) (isMaster : Bool) : String :=
  if isMaster then "stream:playlist:" ++ c ++ ":master"
  else "stream:playlist:" ++ c ++ ":" ++ toString b

/-- `StreamingCacheService.cachePlaylist`. -/
def cachePlaylist (cache : Cache) (c : String) (b : Nat) (text : String)
    (isMaster : Bool) : Cache :=
  cacheSet cache (playlistCacheKey c b isMaster) (strBytes text)

/-- Response of the master playlist endpoint. -/
structure PlaylistResponse where
  statusCode : Nat
  contentType : String
  body : String
  cacheControl : String
  deriving Repr, DecidableEq

/-- `HLSStreamingService.getMasterPlaylist`: 404 when no completed rendition
exists; otherwise regenerate the playlist from the database, overwrite the
master cache entry, and return 200 with the streaming MIME type.  The cache
is never read on this path. -/
def getMasterPlaylist (db : DB) (cache : Cache) (c : String) (cb pb : Option Nat) :
    PlaylistResponse × Cache :=
  if (getAvailableBitrates db c).isEmpty then
    ({ statusCode := 404, contentType := "text/plain"
       body := "No transcoded versions available", cacheControl := "no-cache" },
     cache)
  else
    ({ statusCode := 200, contentType := "application/vnd.apple.mpegurl"
       body := (hlsGenerateMasterPlaylist db c cb pb).snd
       cacheControl := "public, max-age=300" },
     cachePlaylist cache c 0 (hlsGenerateMasterPlaylist db c cb pb).snd true)

/-- Modelled from the spec: the claimed recommendation rule after the
preference — with a given bandwidth, the highest b with b*1000 ≤ bandwidth,
the lowest when none qualifies; without one, the median; fallback 128. -/
def specRecommendedAfter (avail : List Nat) (cb : Option Nat) : Nat :=
  match cb with
  | some w =>
      match ((sortAsc avail).filter (fun b => b * 1000 ≤ w)).getLast? with
      | some b => b
      | none =>
          match (sortAsc avail).head? with
          | some b => b
          | none => 128
  | none =>
      match (sortAsc avail)[(sortAsc avail).length / 2]? with
      | some b => b
      | none => 128

/-- Modelled from the spec: the full claimed rule, preference included. -/
def specRecommendedBitrate (avail : List Nat) (cb pb : Option Nat) : Nat :=
  match pb with
  | some p => if p ∈ avail then p else specRecommendedAfter avail cb
  | none => specRecommendedAfter avail cb

/-- C4 database: completed renditions at 64, 128 and 256 for chapter ch4. -/
def c4db : DB :=
  { renditions :=
      [{ chapterId := "ch4", bitrate := 64
         playlistUrl := "bit_transcode/ch4/64k/playlist.m3u8"
         segmentsPath := "bit_transcode/ch4/64k/", status := "completed" },
       { chapterId := "ch4", bitrate := 128
         playlistUrl := "bit_transcode/ch4/128k/playlist.m3u8"
         segmentsPath := "bit_transcode/ch4/128k/", status := "completed" },
       { chapterId := "ch4", bitrate := 256
         playlistUrl := "bit_transcode/ch4/256k/playlist.m3u8"
         segmentsPath := "bit_transcode/ch4/256k/", status := "completed" }]
    jobs := [] }

/-- C1: with one completed rendition out of three configured bitrates and a
latest job in state `processing`, `getStreamingStatus` reports `processing`,
not `partial` — the partial rule is not applied on this path (it lives only in
`TranscodingService.getTranscodingStatus`). -/
theorem c1_status_not_partial :
    (getStreamingStatus c1db "ch1").transcodingStatus = "processing" ∧
    (getStreamingStatus c1db "ch1").availableBitrates = [64] ∧
    TRANSCODING_BITRATES.length = 3 ∧
    (getStreamingStatus c1db "ch1").transcodingStatus ≠ "partial" := by
  refine ⟨by decide, by decide, by decide, by decide⟩

/-- C1 (amended): `getStreamingStatus`'s `transcodingStatus` ignores the
rendition rows entirely — it is the latest job row's status, `not_started`
when the chapter has no job row — while the partial rule (some but not all of
the configured ladder completed) is implemented by
`TranscodingService.getTranscodingStatus`'s `overallStatus`. -/
theorem c1_status_from_latest_job (db : DB) (c : String) :
    (∀ rs : List Rendition,
        (getStreamingStatus { db with renditions := rs } c).transcodingStatus =
          (getStreamingStatus db c).transcodingStatus) ∧
    (jobsFor db c = [] →
        (getStreamingStatus db c).transcodingStatus = "not_started") ∧
    (∀ j, latestJob (jobsFor db c) = some j →
        (getStreamingStatus db c).transcodingStatus = j.status) ∧
    ((transcodedBitratesOf db c).length ≠ 0 →
      (transcodedBitratesOf db c).length ≠ TRANSCODING_BITRATES.length →
      getTranscodingStatusOverall db c = "partial") := by
  refine ⟨?_, ?_, ?_, ?_⟩
  · intro rs
    simp [getStreamingStatus, jobsFor]
  · intro h
    simp [getStreamingStatus, h, latestJob]
  · intro j hj
    simp [getStreamingStatus, hj]
  · intro h1 h2
    have hpos : (transcodedBitratesOf db c).length > 0 := Nat.pos_of_ne_zero h1
    have hne : ((transcodedBitratesOf db c).length == TRANSCODING_BITRATES.length) ≠ true := by
      simpa using h2
    simp only [getTranscodingStatusOverall, if_pos hpos, if_neg hne]

/-- C1 amended witness: the amended theorem evaluated on the counterexample
database (latest job `processing`) and on a job-free database. -/
theorem c1_status_from_latest_job_witness :
    (getStreamingStatus c1db "ch1").transcodingStatus =
      ({ chapterId := "ch1", status := "processing", progress := 40,
         createdAt := 7 } : TranscodingJob).status ∧
    getTranscodingStatusOverall c1db "ch1" = "partial" := by
  refine ⟨(c1_status_from_latest_job c1db "ch1").2.2.1 _ (by decide), ?_⟩
  exact (c1_status_from_latest_job c1db "ch1").2.2.2 (by decide) (by decide)

set_option maxRecDepth 20000 in
/-- C2: the master worker emits the rows in database order (128 before 64,
not ascending) and omits the completed 320k rendition because 320 is not in
the job's `variantBitrates`; the playlist the claim describes (exactly the
completed bitrates, ascending) differs. -/
theorem c2_counterexample :
    generateMasterPlaylistForBitrates c2db "ch2" [64, 128] =
      some (generateMasterPlaylist [128, 64]) ∧
    specMasterPlaylistText c2db "ch2" = generateMasterPlaylist [64, 128, 320] ∧
    generateMasterPlaylistForBitrates c2db "ch2" [64, 128] ≠
      some (specMasterPlaylistText c2db "ch2") := by
  refine ⟨by decide, by decide, by decide⟩

/-- Folding block appends equals the initial string followed by the
concatenation of all blocks. -/
theorem foldl_append_entries (l : List Nat) (acc : String) :
    l.foldl (fun a b => a ++ variantEntry b) acc = acc ++ concatEntries l := by
  induction l generalizing acc with
  | nil => simp [concatEntries, String.append_empty]
  | cons x xs ih =>
      show xs.foldl (fun a b => a ++ variantEntry b) (acc ++ variantEntry x) = _
      rw [ih, concatEntries, String.append_assoc]

/-- C2 (amended): the master playlist written by the Master Worker contains
one `#EXT-X-STREAM-INF` block, with BANDWIDTH = b*1000, for each rendition
row with b among the job's `variant_bitrates` and status completed — in
database row order, not necessarily ascending, and completed bitrates outside
`variant_bitrates` are omitted. -/
theorem c2_master_playlist (db : DB) (c : String) (vbs : List Nat)
    (h : masterWorkerRows db c vbs ≠ []) :
    generateMasterPlaylistForBitrates db c vbs =
      some ("#EXTM3U\n#EXT-X-VERSION:3\n\n" ++
        concatEntries ((masterWorkerRows db c vbs).map (fun r => r.bitrate))) ∧
    (∀ b : Nat,
      b ∈ (masterWorkerRows db c vbs).map (fun r => r.bitrate) ↔
        ∃ r ∈ db.renditions,
          r.chapterId = c ∧ r.bitrate = b ∧ b ∈ vbs ∧ r.status = "completed") := by
  constructor
  · rw [generateMasterPlaylistForBitrates, if_neg (by simpa using h)]
    rw [generateMasterPlaylist, foldl_append_entries]
  · intro b
    simp only [masterWorkerRows, List.mem_map, List.mem_filter, Bool.and_eq_true,
      beq_iff_eq, List.contains, List.elem_iff]
    aesop

set_option maxRecDepth 20000 in
/-- C2 amended witness: the amended theorem evaluated on the counterexample
database. -/
theorem c2_master_playlist_witness :
    generateMasterPlaylistForBitrates c2db "ch2" [64, 128] =
      some ("#EXTM3U\n#EXT-X-VERSION:3\n\n" ++
        concatEntries [128, 64]) := by
  have h := (c2_master_playlist c2db "ch2" [64, 128] (by decide)).1
  simpa using h

/-- The loop returns the first non-empty observation when one occurs within
the fuel bound. -/
theorem waitLoop_first (obs : Nat → List Nat) :
    ∀ fuel start k, k < fuel → (∀ j, j < k → obs (start + j) = []) →
      obs (start + k) ≠ [] → waitLoop obs start fuel = obs (start + k) := by
  intro fuel
  induction fuel with
  | zero => intro start k hk; omega
  | succ n ih =>
      intro start k hk hbefore hne
      cases k with
      | zero =>
          have h0 : ¬(obs start).isEmpty = true := by
            simpa [List.isEmpty_iff] using hne
          simp [waitLoop, h0]
      | succ m =>
          have h0 : obs start = [] := by simpa using hbefore 0 (Nat.succ_pos m)
          have step : waitLoop obs start (n + 1) = waitLoop obs (start + 1) n := by
            simp [waitLoop, h0]
          rw [step]
          have hrec := ih (start + 1) m (by omega)
            (fun j hj => by
              have := hbefore (j + 1) (by omega)
              simpa [Nat.add_assoc, Nat.add_comm 1 j] using this)
            (by
              have : start + 1 + m = start + (m + 1) := by omega
              rw [this]; exact hne)
          rw [hrec]
          congr 1
          omega

/-- The loop returns `[]` when every observation within the fuel bound is
empty. -/
theorem waitLoop_timeout (obs : Nat → List Nat) :
    ∀ fuel start, (∀ k, k < fuel → obs (start + k) = []) →
      waitLoop obs start fuel = [] := by
  intro fuel
  induction fuel with
  | zero => intro start _; rfl
  | succ n ih =>
      intro start h
      have h0 : obs start = [] := by simpa using h 0 (Nat.succ_pos n)
      have : waitLoop obs start (n + 1) = waitLoop obs (start + 1) n := by
        simp [waitLoop, h0]
      rw [this]
      exact ih (start + 1) (fun k hk => by
        have := h (k + 1) (by omega)
        simpa [Nat.add_assoc, Nat.add_comm 1 k] using this)

/-- C6: the master worker polls at 5-second intervals under a 30-minute
deadline (360 polls); it stops at the first poll that observes at least one
completed rendition among `variant_bitrates`, returning exactly that
observation (it does not wait for the rest); and when every poll up to the
deadline observes none, the master job fails and nothing is uploaded. -/
theorem c6_master_worker_polling (dbs : Nat → DB) (dbPost : DB) (c : String)
    (vbs : List Nat) :
    maxWaitTimeMs = 30 * 60 * 1000 ∧ checkIntervalMs = 5000 ∧ maxChecks = 360 ∧
    (∀ k, k < maxChecks →
      (∀ j, j < k → completedAmong (dbs j) c vbs = []) →
      completedAmong (dbs k) c vbs ≠ [] →
      waitForBitrateJobs dbs c vbs = completedAmong (dbs k) c vbs) ∧
    ((∀ k, k < maxChecks → completedAmong (dbs k) c vbs = []) →
      processMasterPlaylist dbs dbPost c vbs =
        { jobFailed := true, uploadedMaster := none }) := by
  refine ⟨rfl, rfl, by decide, ?_, ?_⟩
  · intro k hk hbefore hne
    have := waitLoop_first (fun j => completedAmong (dbs j) c vbs) maxChecks 0 k hk
      (fun j hj => by simpa using hbefore j hj) (by simpa using hne)
    simpa [waitForBitrateJobs] using this
  · intro h
    have hempty : waitForBitrateJobs dbs c vbs = [] := by
      apply waitLoop_timeout
      intro k hk
      simpa using h k hk
    simp [processMasterPlaylist, hempty]

/-- C6 witness: a run in which the first poll already sees the 64k rendition
completed returns it at once, and a run that never sees a completed rendition
fails without uploading. -/
theorem c6_master_worker_polling_witness :
    waitForBitrateJobs (fun _ => c1db) "ch1" [64, 128] = [64] ∧
    processMasterPlaylist (fun _ => c1db) c1db "zzz" [64, 128] =
      { jobFailed := true, uploadedMaster := none } := by
  constructor
  · have h := (c6_master_worker_polling (fun _ => c1db) c1db "ch1" [64, 128]).2.2.2.1
      0 (by decide) (fun j hj => absurd hj (by omega)) (by decide)
    simpa using h
  · exact (c6_master_worker_polling (fun _ => c1db) c1db "zzz" [64, 128]).2.2.2.2
      (fun k _ => by decide)

/-- C7: re-delivering a request whose bitrates all have completed renditions
is a no-op — the intake worker acks without creating a job row or enqueuing
bitrate or master jobs, and the bitrate worker would likewise short-circuit
at progress 100 without invoking the encoder or changing the database. -/
theorem c7_intake_idempotent (db : DB) (m : IntakeMessage)
    (h : ∀ b ∈ m.bitrates,
      ∃ r, findRendition db m.chapterId b = some r ∧ r.status = "completed") :
    processIntake db m =
      { jobCreated := false, enqueuedBitrates := [], masterJob := none
        acked := true } ∧
    ∀ b ∈ m.bitrates,
      processBitrateTranscoding db m.chapterId b =
        { encoderInvoked := false, finalProgress := 100, dbAfter := db } := by
  constructor
  · have hall : ∀ b ∈ m.bitrates, b ∈ completedAmong db m.chapterId m.bitrates := by
      intro b hb
      obtain ⟨r, hfind, hst⟩ := h b hb
      have hmem : r ∈ db.renditions := List.mem_of_find?_eq_some hfind
      have hpred := List.find?_some hfind
      simp only [Bool.and_eq_true, beq_iff_eq] at hpred
      have hrow : r ∈ masterWorkerRows db m.chapterId m.bitrates := by
        simp only [masterWorkerRows, List.mem_filter, Bool.and_eq_true, beq_iff_eq,
          List.contains, List.elem_iff]
        exact ⟨hmem, ⟨hpred.1, by rw [hpred.2]; exact hb⟩, hst⟩
      simp only [completedAmong, List.mem_map]
      exact ⟨r, hrow, hpred.2⟩
    have hrem : m.bitrates.filter
        (fun b => !(completedAmong db m.chapterId m.bitrates).contains b) = [] := by
      rw [List.filter_eq_nil_iff]
      intro b hb
      simp [hall b hb]
    simp only [processIntake, hrem, List.isEmpty_nil, if_true]
  · intro b hb
    obtain ⟨r, hfind, hst⟩ := h b hb
    simp [processBitrateTranscoding, hfind, hst]

/-- C7 witness: the idempotency theorem evaluated on the C1 database, whose
only requested bitrate (64) is already completed. -/
theorem c7_intake_idempotent_witness :
    processIntake c1db
        { chapterId := "ch1", bitrates := [64], priority := "normal", retryCount := 0 } =
      { jobCreated := false, enqueuedBitrates := [], masterJob := none
        acked := true } :=
  (c7_intake_idempotent c1db
    { chapterId := "ch1", bitrates := [64], priority := "normal", retryCount := 0 }
    (by
      intro b hb
      simp only [List.mem_singleton] at hb
      subst hb
      exact ⟨{ chapterId := "ch1", bitrate := 64
               playlistUrl := "bit_transcode/ch1/64k/playlist.m3u8"
               segmentsPath := "bit_transcode/ch1/64k/"
               status := "completed" }, by decide, by decide⟩)).1

/-- C5: a failure on the very first attempt (`retry_count = 0`, fewer than
three retries) already marks the TranscodingJob row failed — the row is not
marked failed only after three retries as the claim states. -/
theorem c5_counterexample :
    c5msg.retryCount = 0 ∧ (intakeOnFailure c5msg).jobMarkedFailed = true := by
  decide

/-- C5 (amended): on an intake failure the job row is marked failed on every
failure; while `retry_count < 3` the request is additionally republished once
to the low-priority queue with `retry_count + 1`; from `retry_count ≥ 3` on,
no further republish happens; the message itself is acked, not
nack-requeued, because the worker catches the error. -/
theorem c5_failure_policy (m : IntakeMessage) :
    (intakeOnFailure m).jobMarkedFailed = true ∧
    (intakeOnFailure m).nackRequeued = false ∧
    (m.retryCount < 3 →
      (intakeOnFailure m).republished =
        some { m with retryCount := m.retryCount + 1, priority := "low" }) ∧
    (3 ≤ m.retryCount → (intakeOnFailure m).republished = none) := by
  refine ⟨?_, ?_, ?_, ?_⟩
  · by_cases h : m.retryCount < 3 <;> simp [intakeOnFailure, h]
  · by_cases h : m.retryCount < 3 <;> simp [intakeOnFailure, h]
  · intro h; simp [intakeOnFailure, h]
  · intro h; simp [intakeOnFailure, Nat.not_lt.mpr h]

/-- C5 amended witness: the policy evaluated at the first-attempt failure
(republished with retry count 1, priority low) and at a fourth failure
(`retryCount = 3`, no republish). -/
theorem c5_failure_policy_witness :
    (intakeOnFailure c5msg).jobMarkedFailed = true ∧
    (intakeOnFailure c5msg).republished =
      some { c5msg with retryCount := c5msg.retryCount + 1, priority := "low" } ∧
    (intakeOnFailure { c5msg with retryCount := 3 }).republished = none := by
  refine ⟨(c5_failure_policy c5msg).1, (c5_failure_policy c5msg).2.2.1 (by decide), ?_⟩
  exact (c5_failure_policy { c5msg with retryCount := 3 }).2.2.2 (by decide)

set_option maxRecDepth 20000 in
/-- The alphabet scan inverts the alphabet on sextet values. -/
theorem b64ValOf_b64CharOf : ∀ n, n < 64 → b64ValOf (b64CharOf n) = n := by decide

set_option maxRecDepth 20000 in
/-- No sextet value encodes to the padding character. -/
theorem b64CharOf_ne_pad : ∀ n, n < 64 → b64CharOf n ≠ '=' := by decide

/-- Decoding inverts encoding on genuine byte lists. -/
theorem b64_roundtrip : ∀ l : Bytes, (∀ x ∈ l, x < 256) → b64Decode (b64Encode l) = l
  | [], _ => by simp [b64Encode, b64Decode]
  | [b1], h => by
      have h1 : b1 < 256 := h b1 (by simp)
      have e1 := b64ValOf_b64CharOf (b1 / 4) (by omega)
      have e2 := b64ValOf_b64CharOf (b1 % 4 * 16) (by omega)
      simp [b64Encode, b64Decode, e1, e2]
      omega
  | [b1, b2], h => by
      have h1 : b1 < 256 := h b1 (by simp)
      have h2 : b2 < 256 := h b2 (by simp)
      have e1 := b64ValOf_b64CharOf (b1 / 4) (by omega)
      have e2 := b64ValOf_b64CharOf (b1 % 4 * 16 + b2 / 16) (by omega)
      have e3 := b64ValOf_b64CharOf (b2 % 16 * 4) (by omega)
      have n3 := b64CharOf_ne_pad (b2 % 16 * 4) (by omega)
      simp [b64Encode, b64Decode, if_neg n3, e1, e2, e3]
      omega
  | [b1, b2, b3], h => by
      have h1 : b1 < 256 := h b1 (by simp)
      have h2 : b2 < 256 := h b2 (by simp)
      have h3 : b3 < 256 := h b3 (by simp)
      have e1 := b64ValOf_b64CharOf (b1 / 4) (by omega)
      have e2 := b64ValOf_b64CharOf (b1 % 4 * 16 + b2 / 16) (by omega)
      have e3 := b64ValOf_b64CharOf (b2 % 16 * 4 + b3 / 64) (by omega)
      have e4 := b64ValOf_b64CharOf (b3 % 64) (by omega)
      have n3 := b64CharOf_ne_pad (b2 % 16 * 4 + b3 / 64) (by omega)
      have n4 := b64CharOf_ne_pad (b3 % 64) (by omega)
      simp [b64Encode, b64Decode, if_neg n3, if_neg n4, e1, e2, e3, e4]
      omega
  | b1 :: b2 :: b3 :: r1 :: rest, h => by
      have h1 : b1 < 256 := h b1 (by simp)
      have h2 : b2 < 256 := h b2 (by simp)
      have h3 : b3 < 256 := h b3 (by simp)
      have ih := b64_roundtrip (r1 :: rest) (fun x hx => h x (by simp [hx]))
      have e1 := b64ValOf_b64CharOf (b1 / 4) (by omega)
      have e2 := b64ValOf_b64CharOf (b1 % 4 * 16 + b2 / 16) (by omega)
      have e3 := b64ValOf_b64CharOf (b2 % 16 * 4 + b3 / 64) (by omega)
      have e4 := b64ValOf_b64CharOf (b3 % 64) (by omega)
      have n3 := b64CharOf_ne_pad (b2 % 16 * 4 + b3 / 64) (by omega)
      have n4 := b64CharOf_ne_pad (b3 % 64) (by omega)
      simp [b64Encode, b64Decode, if_neg n3, if_neg n4, e1, e2, e3, e4, ih]
      omega

/-- Encoding a non-empty buffer yields a non-empty string. -/
theorem b64Encode_ne_nil : ∀ v : Bytes, v ≠ [] → b64Encode v ≠ []
  | [], hv => absurd rfl hv
  | [_], _ => by simp [b64Encode]
  | [_, _], _ => by simp [b64Encode]
  | _ :: _ :: _ :: _, _ => by simp [b64Encode]

/-- C8: caching the empty buffer and reading it back yields a miss, not the
original buffer — the empty base64 string stored by `set` is falsy in `get`'s
`if (cached)` test — so the set-then-get roundtrip of the claim fails for the
empty buffer. -/
theorem c8_counterexample :
    cacheGet (cacheSet { entries := [] } "stream:segment:s" []) "stream:segment:s" ≠
      some ([] : Bytes) ∧
    cacheGet (cacheSet { entries := [] } "stream:segment:s" []) "stream:segment:s" =
      none := by
  constructor
  · decide
  · decide

/-- C8 (amended): a cache set of a non-empty buffer followed by a get returns
the original buffer (base64 encode/decode roundtrip; an empty stored value
reads as a miss); on a cache miss `getSegment` returns exactly the bytes of
the object at `{segments_path}/{segment_id}` and caches their encoding; and
on a warm hit whose entry is the encoding of the stored object the body is
again byte-equal. -/
theorem c8_segment_byte_equal :
    (∀ (cache : Cache) (k : String) (v : Bytes), v ≠ [] → (∀ x ∈ v, x < 256) →
      cacheGet (cacheSet cache k v) k = some v) ∧
    (∀ (db : DB) (st : Storage) (cache : Cache) (c : String) (b : Nat)
        (sid : String) (r : Rendition) (content : Bytes),
      findRendition db c b = some r → r.status = "completed" →
      cacheGet cache (segmentCacheKey sid) = none →
      storageLookup st (r.segmentsPath ++ "/" ++ sid) = some content →
      (getSegment db st cache c b sid).fst.statusCode = 200 ∧
      (getSegment db st cache c b sid).fst.body = some content ∧
      cacheLookup (getSegment db st cache c b sid).snd (segmentCacheKey sid) =
        some (String.mk (b64Encode content))) ∧
    (∀ (db : DB) (st : Storage) (cache : Cache) (c : String) (b : Nat)
        (sid : String) (r : Rendition) (content : Bytes),
      findRendition db c b = some r → r.status = "completed" →
      content ≠ [] → (∀ x ∈ content, x < 256) →
      cacheLookup cache (segmentCacheKey sid) = some (String.mk (b64Encode content)) →
      (getSegment db st cache c b sid).fst.body = some content) := by
  have hget : ∀ (cache : Cache) (k : String) (v : Bytes), v ≠ [] → (∀ x ∈ v, x < 256) →
      cacheGet (cacheSet cache k v) k = some v := by
    intro cache k v hne hbound
    have hnil := b64Encode_ne_nil v hne
    have hs : String.mk (b64Encode v) ≠ "" := by
      intro hcon
      exact hnil (by simpa using congrArg String.data hcon)
    simp [cacheGet, cacheSet, cacheSetRaw, cacheLookup, hs, b64_roundtrip v hbound]
  refine ⟨hget, ?_, ?_⟩
  · intro db st cache c b sid r content hfind hst hmiss hobj
    have hbeq : (r.status == "completed") = true := by simp [hst]
    have hrun : getSegment db st cache c b sid =
        ({ statusCode := 200, contentType := "video/mp2t", body := some content
           cacheControl := "public, max-age=3600" },
         cacheSet cache (segmentCacheKey sid) content) := by
      simp only [getSegment, hfind, hbeq, if_true, hmiss, hobj]
    rw [hrun]
    refine ⟨rfl, rfl, ?_⟩
    simp [cacheSet, cacheSetRaw, cacheLookup]
  · intro db st cache c b sid r content hfind hst hne hbound hhit
    have hbeq : (r.status == "completed") = true := by simp [hst]
    have hnil := b64Encode_ne_nil content hne
    have hs : String.mk (b64Encode content) ≠ "" := by
      intro hcon
      exact hnil (by simpa using congrArg String.data hcon)
    have hcg : cacheGet cache (segmentCacheKey sid) = some content := by
      simp [cacheGet, hhit, hs, b64_roundtrip content hbound]
    have hrun : getSegment db st cache c b sid =
        ({ statusCode := 200, contentType := "video/mp2t", body := some content
           cacheControl := "public, max-age=3600" }, cache) := by
      simp only [getSegment, hfind, hbeq, if_true, hcg]
    rw [hrun]

/-- C8 amended witness: roundtrip of a concrete two-byte segment, and a cold
`getSegment` on the C1 database returning exactly the stored object. -/
theorem c8_segment_byte_equal_witness :
    cacheGet (cacheSet { entries := [] } "stream:segment:x" [7, 200])
        "stream:segment:x" = some [7, 200] ∧
    (getSegment c1db
        { files := [("bit_transcode/ch1/64k//segment_000.ts", [9, 17])] }
        { entries := [] } "ch1" 64 "segment_000.ts").fst.body = some [9, 17] := by
  constructor
  · exact c8_segment_byte_equal.1 { entries := [] } "stream:segment:x" [7, 200]
      (by decide) (by decide)
  · exact (c8_segment_byte_equal.2.1 c1db
      { files := [("bit_transcode/ch1/64k//segment_000.ts", [9, 17])] }
      { entries := [] } "ch1" 64 "segment_000.ts"
      { chapterId := "ch1", bitrate := 64
        playlistUrl := "bit_transcode/ch1/64k/playlist.m3u8"
        segmentsPath := "bit_transcode/ch1/64k/"
        status := "completed" } [9, 17]
      (by decide) (by decide) (by decide) (by decide)).2.1

set_option maxRecDepth 40000 in
/-- C3: `PreloadChapter` does not return the number of segments loaded — it
returns the same value (`true`) for a two-segment chapter (2 loaded) and for
a three-segment chapter (3 loaded); only the inner cache routine computes 2
resp. 3, and that number is discarded. -/
theorem c3_counterexample :
    (preloadChapter c1db c3st2 { entries := [] } "ch1" 64).fst = true ∧
    (preloadChapter c1db c3st3 { entries := [] } "ch1" 64).fst = true ∧
    (preloadChapterSegments c3st2 { entries := [] } "ch1" 64 2).snd = 2 ∧
    (preloadChapterSegments c3st3 { entries := [] } "ch1" 64 3).snd = 3 ∧
    (preloadChapter c1db c3st2 { entries := [] } "ch1" 64).fst =
      (preloadChapter c1db c3st3 { entries := [] } "ch1" 64).fst := by
  refine ⟨by decide, by decide, by decide, by decide, by decide⟩

/-- The preload loop's second component counts the successfully downloaded
segments. -/
theorem preload_count (st : Storage) (c : String) (b : Nat) :
    ∀ (l : List Nat) (cache : Cache) (k : Nat),
      (l.foldl (preloadStep st c b) (cache, k)).snd =
        k + l.countP (fun i => (storageLookup st (preloadSegmentPath c b i)).isSome) := by
  intro l
  induction l with
  | nil => intro cache k; simp
  | cons j l ih =>
      intro cache k
      cases hj : storageLookup st (preloadSegmentPath c b j) with
      | none =>
          simp only [List.foldl_cons, preloadStep, hj, List.countP_cons, hj,
            Option.isSome_none]
          rw [ih]
          simp
      | some content =>
          simp only [List.foldl_cons, preloadStep, hj]
          rw [ih]
          have hcnt : (j :: l).countP
              (fun i => (storageLookup st (preloadSegmentPath c b i)).isSome) =
              l.countP (fun i => (storageLookup st (preloadSegmentPath c b i)).isSome)
                + 1 := by
            simp [List.countP_cons, hj]
          rw [hcnt]
          omega

/-- Cache entries only accumulate during the preload loop. -/
theorem preload_mem_mono (st : Storage) (c : String) (b : Nat) :
    ∀ (l : List Nat) (acc : Cache × Nat) (p : String × String),
      p ∈ acc.fst.entries → p ∈ (l.foldl (preloadStep st c b) acc).fst.entries := by
  intro l
  induction l with
  | nil => intro acc p hp; exact hp
  | cons j l ih =>
      intro acc p hp
      cases hj : storageLookup st (preloadSegmentPath c b j) with
      | none =>
          simp only [List.foldl_cons, preloadStep, hj]
          exact ih acc p hp
      | some content =>
          simp only [List.foldl_cons, preloadStep, hj]
          exact ih _ p (List.mem_cons_of_mem _ hp)

/-- Every index whose segment exists in storage ends up cached by the loop. -/
theorem preload_mem_of_elem (st : Storage) (c : String) (b : Nat) :
    ∀ (l : List Nat) (acc : Cache × Nat) (i : Nat), i ∈ l →
      ∀ content, storageLookup st (preloadSegmentPath c b i) = some content →
      (segmentCacheKey (preloadSegmentId c b i), String.mk (b64Encode content)) ∈
        (l.foldl (preloadStep st c b) acc).fst.entries := by
  intro l
  induction l with
  | nil => intro acc i hi; exact absurd hi (List.not_mem_nil i)
  | cons j l ih =>
      intro acc i hi content hcontent
      rcases List.mem_cons.mp hi with hij | hmem
      · subst hij
        simp only [List.foldl_cons, preloadStep, hcontent]
        exact preload_mem_mono st c b l _ _ (by
          simp [cacheSet, cacheSetRaw])
      · exact (by
          cases hj : storageLookup st (preloadSegmentPath c b j) with
          | none =>
              simp only [List.foldl_cons, preloadStep, hj]
              exact ih acc i hmem content hcontent
          | some cj =>
              simp only [List.foldl_cons, preloadStep, hj]
              exact ih _ i hmem content hcontent)

/-- C3 (amended): for a completed rendition, `PreloadChapter` synchronously
preloads one segment per `.ts` file under the rendition's `segmentsPath` and
returns `true` (not a count); the inner `preloadChapterSegments` returns the
number of segments actually loaded, and each segment present in storage is
written into the cache under `stream:segment:{chapterId}_{bitrate}_{NNN}`. -/
theorem c3_preload (db : DB) (st : Storage) (cache : Cache) (c : String) (b : Nat)
    (r : Rendition) (hfind : findRendition db c b = some r)
    (hst : r.status = "completed") :
    (preloadChapter db st cache c b).fst = true ∧
    (preloadChapter db st cache c b).snd =
      (preloadChapterSegments st cache c b
        ((listFiles st r.segmentsPath).filter (fun f => f.endsWith ".ts")).length).fst ∧
    (∀ count, (preloadChapterSegments st cache c b count).snd =
      (List.range count).countP
        (fun i => (storageLookup st (preloadSegmentPath c b i)).isSome)) ∧
    (∀ count i, i < count →
      ∀ content, storageLookup st (preloadSegmentPath c b i) = some content →
      (segmentCacheKey (preloadSegmentId c b i), String.mk (b64Encode content)) ∈
        (preloadChapterSegments st cache c b count).fst.entries) := by
  have hbeq : (r.status == "completed") = true := by simp [hst]
  refine ⟨?_, ?_, ?_, ?_⟩
  · simp [preloadChapter, hfind, hbeq]
  · simp [preloadChapter, hfind, hbeq]
  · intro count
    simpa using preload_count st c b (List.range count) cache 0
  · intro count i hi content hcontent
    exact preload_mem_of_elem st c b (List.range count) (cache, 0) i
      (List.mem_range.mpr hi) content hcontent

set_option maxRecDepth 40000 in
/-- C3 amended witness: the amended theorem on the two-segment storage —
preload succeeds, two segments counted, segment 000 cached. -/
theorem c3_preload_witness :
    (preloadChapter c1db c3st2 { entries := [] } "ch1" 64).fst = true ∧
    (preloadChapterSegments c3st2 { entries := [] } "ch1" 64 2).snd =
      (List.range 2).countP
        (fun i => (storageLookup c3st2 (preloadSegmentPath "ch1" 64 i)).isSome) ∧
    (segmentCacheKey (preloadSegmentId "ch1" 64 0), String.mk (b64Encode [1])) ∈
      (preloadChapterSegments c3st2 { entries := [] } "ch1" 64 2).fst.entries := by
  have h := c3_preload c1db c3st2 { entries := [] } "ch1" 64
    { chapterId := "ch1", bitrate := 64
      playlistUrl := "bit_transcode/ch1/64k/playlist.m3u8"
      segmentsPath := "bit_transcode/ch1/64k/"
      status := "completed" } (by decide) (by decide)
  exact ⟨h.1, h.2.2.1 2, h.2.2.2 2 0 (by decide) [1] (by decide)⟩

set_option maxRecDepth 40000 in
/-- C4: a request with `bandwidth=0` (a given client bandwidth) must, per the
claim, fall back to the lowest available bitrate (64, as no bitrate satisfies
b*1000 ≤ 0), but the code treats the zero bandwidth as absent (JS falsiness)
and selects the median 128. -/
theorem c4_counterexample :
    getAvailableBitrates c4db "ch4" = [64, 128, 256] ∧
    specRecommendedBitrate [64, 128, 256] (some 0) none = 64 ∧
    selectRecommendedBitrate [64, 128, 256] (some 0) none = 128 ∧
    (hlsGenerateMasterPlaylist c4db "ch4" (some 0) none).fst = 128 := by
  refine ⟨by decide, by decide, by decide, by decide⟩

/-- Folding block appends equals the initial string followed by the
concatenation of the blocks. -/
theorem foldl_append_strings (f : Nat → String) (l : List Nat) (acc : String) :
    l.foldl (fun a b => a ++ f b) acc = acc ++ concatStrings (l.map f) := by
  induction l generalizing acc with
  | nil => simp [concatStrings, String.append_empty]
  | cons x xs ih =>
      show xs.foldl (fun a b => a ++ f b) (acc ++ f x) = _
      rw [ih, List.map_cons, concatStrings, String.append_assoc]

/-- In an ascending list every element is at most the last. -/
theorem le_getLast_of_sorted :
    ∀ (l : List Nat), List.Sorted (fun x y => x ≤ y) l →
      ∀ b ∈ l, ∀ (h : l ≠ []), b ≤ l.getLast h := by
  intro l
  induction l with
  | nil => intro _ b hb; exact absurd hb (List.not_mem_nil b)
  | cons a t ih =>
      intro hs b hb h
      cases t with
      | nil =>
          have : b = a := by simpa using hb
          subst this
          simp [List.getLast]
      | cons x xs =>
          rw [List.getLast_cons (by simp)]
          rcases List.mem_cons.mp hb with rfl | hmem
          · have hax : ∀ y ∈ x :: xs, b ≤ y := List.rel_of_sorted_cons hs
            exact hax _ (List.getLast_mem (by simp))
          · exact ih hs.of_cons b hmem (by simp)

/-- Filtering a duplicate-free list for one of its members keeps exactly it. -/
theorem filter_beq_of_nodup :
    ∀ (l : List Nat), l.Nodup → ∀ x ∈ l, l.filter (fun b => b == x) = [x] := by
  intro l
  induction l with
  | nil => intro _ x hx; exact absurd hx (List.not_mem_nil x)
  | cons a t ih =>
      intro hnd x hx
      rcases List.mem_cons.mp hx with rfl | hmem
      · have hnot : x ∉ t := (List.nodup_cons.mp hnd).1
        have : t.filter (fun b => b == x) = [] := by
          rw [List.filter_eq_nil_iff]
          intro b hb
          simp only [beq_iff_eq]
          intro hcon
          exact hnot (hcon ▸ hb)
        simp [List.filter_cons, this]
      · have hne : (a == x) = false := by
          have : a ≠ x := by
            intro hcon
            exact (List.nodup_cons.mp hnd).1 (hcon ▸ hmem)
          simpa using this
        simp [List.filter_cons, hne, ih (List.nodup_cons.mp hnd).2 x hmem]

/-- The available-bitrate list is ascending. -/
theorem getAvailableBitrates_sorted (db : DB) (c : String) :
    List.Sorted (fun a b => a ≤ b) (getAvailableBitrates db c) :=
  List.sorted_insertionSort _ _

/-- Every available bitrate has a rendition row, so the `bitrateInfos` loop
keeps all of them. -/
theorem hlsBitrateInfos_eq (db : DB) (c : String) :
    hlsBitrateInfos db c = getAvailableBitrates db c := by
  apply List.filter_eq_self.mpr
  intro b hb
  have hb' : b ∈ (completedRenditions db c).map (fun r => r.bitrate) :=
    (List.perm_insertionSort (fun a b : Nat => a ≤ b)
      ((completedRenditions db c).map (fun r => r.bitrate))).mem_iff.mp hb
  obtain ⟨r, hr, rfl⟩ := List.mem_map.mp hb'
  have hr2 := List.mem_filter.mp hr
  have hpred := hr2.2
  simp only [Bool.and_eq_true, beq_iff_eq] at hpred
  simp only [findRendition, Option.isSome_iff_exists]
  have : (db.renditions.find? (fun x => x.chapterId == c && x.bitrate == r.bitrate)).isSome := by
    rw [List.find?_isSome]
    exact ⟨r, hr2.1, by simp [hpred.1]⟩
  obtain ⟨x, hx⟩ := Option.isSome_iff_exists.mp this
  exact ⟨x, hx⟩

/-- Characterisation of the recommended-bitrate selection on an ascending,
duplicate-free, zero-free, non-empty availability list. -/
theorem selectRecommended_cases (A : List Nat) (cb pb : Option Nat)
    (hne : A ≠ []) (hpos : 0 ∉ A)
    (hsorted : List.Sorted (fun a b => a ≤ b) A) :
    (∀ p, pb = some p → p ≠ 0 → p ∈ A → selectRecommendedBitrate A cb pb = p) ∧
    (∀ w, prefCond A pb = false → cb = some w → w ≠ 0 →
      ((∃ b ∈ A, b * 1000 ≤ w) →
        selectRecommendedBitrate A cb pb ∈ A ∧
        selectRecommendedBitrate A cb pb * 1000 ≤ w ∧
        ∀ b ∈ A, b * 1000 ≤ w → b ≤ selectRecommendedBitrate A cb pb) ∧
      ((∀ b ∈ A, ¬ b * 1000 ≤ w) →
        selectRecommendedBitrate A cb pb ∈ A ∧
        ∀ b ∈ A, selectRecommendedBitrate A cb pb ≤ b)) ∧
    (prefCond A pb = false → cbCond cb = false →
      A[A.length / 2]? = some (selectRecommendedBitrate A cb pb)) ∧
    selectRecommendedBitrate A cb pb ∈ A := by
  have hsort_eq : sortAsc A = A := List.Sorted.insertionSort_eq hsorted
  have hjsOr_mem : ∀ m d, m ∈ A → jsOr (some m) d = m := by
    intro m d hm
    have : m ≠ 0 := fun hcon => hpos (hcon ▸ hm)
    simp [jsOr, this]
  have hmedian : prefCond A pb = false → cbCond cb = false →
      A[A.length / 2]? = some (selectRecommendedBitrate A cb pb) ∧
      selectRecommendedBitrate A cb pb ∈ A := by
    intro hp hc
    have hlen : 0 < A.length := List.length_pos.mpr hne
    have hidx : A.length / 2 < A.length := Nat.div_lt_self hlen (by omega)
    have hgm : A[A.length / 2]? = some A[A.length / 2] :=
      List.getElem?_eq_getElem hidx
    have hmem : A[A.length / 2] ∈ A := List.getElem_mem hidx
    have hsel : selectRecommendedBitrate A cb pb =
        jsOr A[A.length / 2]? (jsOr A[0]? 128) := by
      rw [selectRecommendedBitrate, if_neg (by simp [hp]), if_neg (by simp [hc]),
        hsort_eq]
    rw [hsel, hgm, hjsOr_mem _ _ hmem]
    exact ⟨rfl, hmem⟩
  have hbandwidth : ∀ w, prefCond A pb = false → cb = some w → w ≠ 0 →
      (∀ (hsne : A.filter (fun b => b * 1000 ≤ w) ≠ []),
        selectRecommendedBitrate A cb pb =
          (A.filter (fun b => b * 1000 ≤ w)).getLast hsne ∧
        selectRecommendedBitrate A cb pb ∈ A) ∧
      (A.filter (fun b => b * 1000 ≤ w) = [] →
        selectRecommendedBitrate A cb pb = A.head hne ∧
        selectRecommendedBitrate A cb pb ∈ A) := by
    intro w hp hcb hw
    have hcbc : cbCond cb = true := by simp [cbCond, hcb, hw]
    constructor
    · intro hsne
      have hlpos : 0 < (A.filter (fun b => b * 1000 ≤ w)).length :=
        List.length_pos.mpr hsne
      have hgl : (A.filter (fun b => b * 1000 ≤ w))[(A.filter
          (fun b => b * 1000 ≤ w)).length - 1]? =
          some ((A.filter (fun b => b * 1000 ≤ w)).getLast hsne) := by
        rw [← List.getLast?_eq_getElem?]
        exact List.getLast?_eq_getLast _ hsne
      have hmem : (A.filter (fun b => b * 1000 ≤ w)).getLast hsne ∈ A :=
        List.mem_of_mem_filter (List.getLast_mem hsne)
      have hsel : selectRecommendedBitrate A cb pb =
          jsOr (A.filter (fun b => b * 1000 ≤ w))[(A.filter
            (fun b => b * 1000 ≤ w)).length - 1]? 128 := by
        rw [selectRecommendedBitrate, if_neg (by simp [hp]), if_pos hcbc]
        simp only [hcb, Option.getD_some]
        rw [if_pos hlpos]
      rw [hsel, hgl, hjsOr_mem _ _ hmem]
      exact ⟨rfl, hmem⟩
    · intro hsnil
      have hA0 : A[0]? = some (A.head hne) := by
        cases A with
        | nil => exact absurd rfl hne
        | cons a t => simp
      have hmem : A.head hne ∈ A := List.head_mem hne
      have hsel : selectRecommendedBitrate A cb pb = jsOr A[0]? 128 := by
        rw [selectRecommendedBitrate, if_neg (by simp [hp]), if_pos hcbc]
        simp only [hcb, Option.getD_some]
        rw [if_neg (by simp [hsnil])]
      rw [hsel, hA0, hjsOr_mem _ _ hmem]
      exact ⟨rfl, hmem⟩
  refine ⟨?_, ?_, ?_, ?_⟩
  · intro p hpb hp0 hpA
    have hcond : prefCond A pb = true := by
      subst hpb
      simp only [prefCond, Bool.and_eq_true, bne_iff_ne, List.contains,
        List.elem_iff]
      exact ⟨hp0, hpA⟩
    rw [selectRecommendedBitrate, if_pos hcond, hpb, Option.getD_some]
  · intro w hp hcb hw
    constructor
    · intro hex
      have hsne : A.filter (fun b => b * 1000 ≤ w) ≠ [] := by
        intro hcon
        rw [List.filter_eq_nil_iff] at hcon
        obtain ⟨b, hbA, hble⟩ := hex
        exact absurd (by simpa using hble) (by simpa using hcon b hbA)
      obtain ⟨heq, hmem⟩ := (hbandwidth w hp hcb hw).1 hsne
      refine ⟨hmem, ?_, ?_⟩
      · rw [heq]
        have := List.of_mem_filter (List.getLast_mem hsne)
        simpa using this
      · intro b hbA hble
        rw [heq]
        have hbmem : b ∈ A.filter (fun b => b * 1000 ≤ w) :=
          List.mem_filter.mpr ⟨hbA, by simpa using hble⟩
        exact le_getLast_of_sorted _ (hsorted.sublist (List.filter_sublist A))
          b hbmem hsne
    · intro hnone
      have hsnil : A.filter (fun b => b * 1000 ≤ w) = [] := by
        rw [List.filter_eq_nil_iff]
        intro b hbA
        simpa using hnone b hbA
      obtain ⟨heq, hmem⟩ := (hbandwidth w hp hcb hw).2 hsnil
      refine ⟨hmem, ?_⟩
      intro b hbA
      rw [heq]
      cases A with
      | nil => exact absurd rfl hne
      | cons a t =>
          rcases List.mem_cons.mp hbA with rfl | hmem2
          · exact Nat.le_refl _
          · exact List.rel_of_sorted_cons hsorted b hmem2
  · intro hp hc
    exact (hmedian hp hc).1
  · by_cases hpref : prefCond A pb = true
    · cases pb with
      | none => simp [prefCond] at hpref
      | some p =>
          simp only [prefCond, Bool.and_eq_true, bne_iff_ne, List.contains,
            List.elem_iff] at hpref
          have hcond : prefCond A (some p) = true := by
            simp only [prefCond, Bool.and_eq_true, bne_iff_ne, List.contains,
              List.elem_iff]
            exact hpref
          rw [selectRecommendedBitrate, if_pos hcond, Option.getD_some]
          exact hpref.2
    · have hp : prefCond A pb = false := by simpa using hpref
      by_cases hcbc : cbCond cb = true
      · cases cb with
        | none => simp [cbCond] at hcbc
        | some w =>
            have hw : w ≠ 0 := by simpa [cbCond] using hcbc
            by_cases hsne : A.filter (fun b => b * 1000 ≤ w) = []
            · exact ((hbandwidth w hp rfl hw).2 hsne).2
            · exact ((hbandwidth w hp rfl hw).1 hsne).2
      · exact (hmedian hp (by simpa using hcbc)).2

/-- C4 (amended): with a non-empty, zero-free, duplicate-free availability
set A, the recommended variant is: preferred_bitrate when non-zero and in A;
else, when client_bandwidth is given and non-zero, the highest b in A with
b*1000 ≤ bandwidth (lowest element of A when none qualifies); else — also
when bandwidth or preference equals 0, which JS treats as absent — the upper
median of A; and exactly the recommended variant's block carries
RESOLUTION=0x0. -/
theorem c4_recommended_variant (db : DB) (c : String) (cb pb : Option Nat)
    (hne : getAvailableBitrates db c ≠ [])
    (hpos : 0 ∉ getAvailableBitrates db c)
    (hnd : (getAvailableBitrates db c).Nodup) :
    (hlsGenerateMasterPlaylist db c cb pb).fst =
      selectRecommendedBitrate (getAvailableBitrates db c) cb pb ∧
    (∀ p, pb = some p → p ≠ 0 → p ∈ getAvailableBitrates db c →
      (hlsGenerateMasterPlaylist db c cb pb).fst = p) ∧
    (∀ w, prefCond (getAvailableBitrates db c) pb = false → cb = some w → w ≠ 0 →
      ((∃ b ∈ getAvailableBitrates db c, b * 1000 ≤ w) →
        (hlsGenerateMasterPlaylist db c cb pb).fst ∈ getAvailableBitrates db c ∧
        (hlsGenerateMasterPlaylist db c cb pb).fst * 1000 ≤ w ∧
        ∀ b ∈ getAvailableBitrates db c, b * 1000 ≤ w →
          b ≤ (hlsGenerateMasterPlaylist db c cb pb).fst) ∧
      ((∀ b ∈ getAvailableBitrates db c, ¬ b * 1000 ≤ w) →
        (hlsGenerateMasterPlaylist db c cb pb).fst ∈ getAvailableBitrates db c ∧
        ∀ b ∈ getAvailableBitrates db c,
          (hlsGenerateMasterPlaylist db c cb pb).fst ≤ b)) ∧
    (prefCond (getAvailableBitrates db c) pb = false → cbCond cb = false →
      (getAvailableBitrates db c)[(getAvailableBitrates db c).length / 2]? =
        some (hlsGenerateMasterPlaylist db c cb pb).fst) ∧
    (hlsGenerateMasterPlaylist db c cb pb).snd =
      "#EXTM3U\n#EXT-X-VERSION:3\n\n" ++
        concatStrings ((getAvailableBitrates db c).map
          (fun b => hlsVariantBlock c b
            (b == (hlsGenerateMasterPlaylist db c cb pb).fst))) ∧
    (getAvailableBitrates db c).filter
        (fun b => b == (hlsGenerateMasterPlaylist db c cb pb).fst) =
      [(hlsGenerateMasterPlaylist db c cb pb).fst] := by
  have hinfo := hlsBitrateInfos_eq db c
  have hfst : (hlsGenerateMasterPlaylist db c cb pb).fst =
      selectRecommendedBitrate (getAvailableBitrates db c) cb pb := by
    simp [hlsGenerateMasterPlaylist, hinfo]
  have hcases := selectRecommended_cases (getAvailableBitrates db c) cb pb hne hpos
    (getAvailableBitrates_sorted db c)
  refine ⟨hfst, ?_, ?_, ?_, ?_, ?_⟩
  · intro p h1 h2 h3
    rw [hfst]
    exact hcases.1 p h1 h2 h3
  · intro w h1 h2 h3
    constructor
    · intro hex
      obtain ⟨m1, m2, m3⟩ := (hcases.2.1 w h1 h2 h3).1 hex
      exact ⟨hfst ▸ m1, hfst ▸ m2, fun b hb hble => hfst ▸ m3 b hb hble⟩
    · intro hall
      obtain ⟨m1, m2⟩ := (hcases.2.1 w h1 h2 h3).2 hall
      exact ⟨hfst ▸ m1, fun b hb => hfst ▸ m2 b hb⟩
  · intro h1 h2
    rw [hfst]
    exact hcases.2.2.1 h1 h2
  · show ((hlsBitrateInfos db c).foldl _ _) = _
    rw [hinfo, hfst]
    exact foldl_append_strings
      (fun b => hlsVariantBlock c b
        (b == selectRecommendedBitrate (getAvailableBitrates db c) cb pb)) _ _
  · rw [hfst]
    exact filter_beq_of_nodup _ hnd _ (hfst ▸ hcases.2.2.2)

set_option maxRecDepth 40000 in
/-- C4 amended witness: scenario S4 — renditions 64, 128, 256 and
`bandwidth=150000` select a variant in A, fitting the bandwidth, and exactly
one block is annotated as recommended. -/
theorem c4_recommended_variant_witness :
    (hlsGenerateMasterPlaylist c4db "ch4" (some 150000) none).fst ∈
      getAvailableBitrates c4db "ch4" ∧
    (hlsGenerateMasterPlaylist c4db "ch4" (some 150000) none).fst * 1000 ≤ 150000 ∧
    (getAvailableBitrates c4db "ch4").filter
        (fun b => b == (hlsGenerateMasterPlaylist c4db "ch4" (some 150000) none).fst) =
      [(hlsGenerateMasterPlaylist c4db "ch4" (some 150000) none).fst] := by
  have h := c4_recommended_variant c4db "ch4" (some 150000) none
    (by decide) (by decide) (by decide)
  obtain ⟨m1, m2, _⟩ := (h.2.2.1 150000 (by decide) rfl (by decide)).1
    ⟨64, by decide, by decide⟩
  exact ⟨m1, m2, h.2.2.2.2.2⟩

/-- The availability list is empty exactly when the chapter has no completed
rendition row. -/
theorem getAvailableBitrates_eq_nil_iff (db : DB) (c : String) :
    getAvailableBitrates db c = [] ↔
      ∀ r ∈ db.renditions, ¬(r.chapterId = c ∧ r.status = "completed") := by
  constructor
  · intro h r hr hcon
    have hperm := List.perm_insertionSort (fun a b : Nat => a ≤ b)
      ((completedRenditions db c).map (fun x => x.bitrate))
    rw [show List.insertionSort (fun a b : Nat => a ≤ b)
        ((completedRenditions db c).map (fun x => x.bitrate)) =
        getAvailableBitrates db c from rfl, h] at hperm
    have hmapnil : (completedRenditions db c).map (fun x => x.bitrate) = [] :=
      hperm.symm.eq_nil
    have hcnil : completedRenditions db c = [] := List.map_eq_nil_iff.mp hmapnil
    rw [completedRenditions, List.filter_eq_nil_iff] at hcnil
    have := hcnil r hr
    simp only [Bool.and_eq_true, beq_iff_eq] at this
    exact this ⟨hcon.1, hcon.2⟩
  · intro h
    have hcnil : completedRenditions db c = [] := by
      rw [completedRenditions, List.filter_eq_nil_iff]
      intro r hr
      simp only [Bool.and_eq_true, beq_iff_eq]
      exact fun hcon => h r hr hcon
    show sortAsc ((completedRenditions db c).map (fun x => x.bitrate)) = []
    rw [hcnil]
    rfl

/-- C9: the master playlist endpoint returns 404 when the chapter has no
completed rendition, and otherwise 200 with the generated playlist body, the
`application/vnd.apple.mpegurl` MIME type and `Cache-Control: public,
max-age=300`. -/
theorem c9_master_playlist_http (db : DB) (cache : Cache) (c : String)
    (cb pb : Option Nat) :
    ((∀ r ∈ db.renditions, ¬(r.chapterId = c ∧ r.status = "completed")) →
      (getMasterPlaylist db cache c cb pb).fst.statusCode = 404) ∧
    ((∃ r ∈ db.renditions, r.chapterId = c ∧ r.status = "completed") →
      (getMasterPlaylist db cache c cb pb).fst.statusCode = 200 ∧
      (getMasterPlaylist db cache c cb pb).fst.contentType =
        "application/vnd.apple.mpegurl" ∧
      (getMasterPlaylist db cache c cb pb).fst.cacheControl =
        "public, max-age=300" ∧
      (getMasterPlaylist db cache c cb pb).fst.body =
        (hlsGenerateMasterPlaylist db c cb pb).snd) := by
  constructor
  · intro h
    have hnil : getAvailableBitrates db c = [] :=
      (getAvailableBitrates_eq_nil_iff db c).mpr h
    simp [getMasterPlaylist, hnil]
  · intro h
    have hnnil : getAvailableBitrates db c ≠ [] := by
      intro hcon
      obtain ⟨r, hr, hc2⟩ := h
      exact (getAvailableBitrates_eq_nil_iff db c).mp hcon r hr hc2
    have hemp : (getAvailableBitrates db c).isEmpty = false := by
      simpa [List.isEmpty_iff] using hnnil
    simp [getMasterPlaylist, hemp]

/-- C9 witness: on the C1 database, an unknown chapter gets 404 and chapter
ch1 gets a 200 with the cache header. -/
theorem c9_master_playlist_http_witness :
    (getMasterPlaylist c1db { entries := [] } "nochapter" none none).fst.statusCode =
      404 ∧
    (getMasterPlaylist c1db { entries := [] } "ch1" none none).fst.statusCode = 200 ∧
    (getMasterPlaylist c1db { entries := [] } "ch1" none none).fst.cacheControl =
      "public, max-age=300" := by
  have h404 := (c9_master_playlist_http c1db { entries := [] } "nochapter" none
    none).1 (by decide)
  have h200 := (c9_master_playlist_http c1db { entries := [] } "ch1" none none).2
    ⟨{ chapterId := "ch1", bitrate := 64
       playlistUrl := "bit_transcode/ch1/64k/playlist.m3u8"
       segmentsPath := "bit_transcode/ch1/64k/"
       status := "completed" }, by decide, by decide, by decide⟩
  exact ⟨h404, h200.1, h200.2.2.1⟩

/-- C10: the master playlist endpoint never reads the cache — the response is
the same under any two cache states with the same database and parameters —
and it overwrites the `stream:playlist:{chapterId}:master` entry with the
encoding of the body it returns. -/
theorem c10_master_cache_not_read (db : DB) (c : String) (cb pb : Option Nat) :
    (∀ cache1 cache2 : Cache,
      (getMasterPlaylist db cache1 c cb pb).fst =
        (getMasterPlaylist db cache2 c cb pb).fst) ∧
    (∀ cache : Cache, getAvailableBitrates db c ≠ [] →
      cacheLookup (getMasterPlaylist db cache c cb pb).snd
          ("stream:playlist:" ++ c ++ ":master") =
        some (String.mk (b64Encode
          (strBytes (getMasterPlaylist db cache c cb pb).fst.body)))) := by
  constructor
  · intro cache1 cache2
    by_cases hemp : (getAvailableBitrates db c).isEmpty <;>
      simp [getMasterPlaylist, hemp]
  · intro cache hne
    have hemp : (getAvailableBitrates db c).isEmpty = false := by
      simpa [List.isEmpty_iff] using hne
    simp [getMasterPlaylist, hemp, cachePlaylist, playlistCacheKey, cacheSet,
      cacheSetRaw, cacheLookup]

/-- C10 witness: a stale cached master for ch1 does not change the response,
and the master key afterwards holds the returned body's encoding. -/
theorem c10_master_cache_not_read_witness :
    (getMasterPlaylist c1db { entries := [] } "ch1" none none).fst =
      (getMasterPlaylist c1db
        { entries := [("stream:playlist:ch1:master", "stale")] } "ch1" none
        none).fst ∧
    cacheLookup (getMasterPlaylist c1db { entries := [] } "ch1" none none).snd
        ("stream:playlist:" ++ "ch1" ++ ":master") =
      some (String.mk (b64Encode (strBytes
        (getMasterPlaylist c1db { entries := [] } "ch1" none none).fst.body))) := by
  refine ⟨?_, ?_⟩
  · exact (c10_master_cache_not_read c1db "ch1" none none).1 _ _
  · exact (c10_master_cache_not_read c1db "ch1" none none).2 _ (by decide)

end AudioStream
